import Mathlib

/-!
Verification development for the umami-data-sync function.

The embedding models the window-based `UmamiService` (the version with
`determineSyncWindow` / `updateLastSuccessfulSync`) in
`src/core/services/umami/umami.service.ts`, the paginated
`UmamiApiService.fetchAllSessions` in
`src/core/services/umami/umamiApi.service.ts`, and the relevant constants in
`src/core/services/umami/umami.constants.ts`.

Conventions of the embedding:
* Machine time: every `new Date()` / `Date.now()` call is a read of an
  abstract monotone-free clock oracle `Env.timeline`, consumed through a
  counter `SyncState.timeIdx`.  Instants are `Int` milliseconds.
* External effects (the MySQL session query, the Umami API login, each page
  fetch of the sessions endpoint) are oracles in `Env` returning
  `Except SyncError _`; a thrown exception is the `.error` branch.
* The Mongo document store (the `users` collection and the `systemconfigs`
  singleton) is explicit state in `SyncState`; `updateOne` against it is a
  pure state transition (a store whose individual writes succeed once the
  connection exists).  The `DatabaseService.getInstance().getConnection()`
  null-check of the source is modelled by `Env.dbConnected`.
* Functions are explicit state passers `SyncState → Except SyncError α ×
  SyncState`: when an exception propagates, state mutations performed before
  the throw are kept, exactly as in the source.
-/

/-! ### Constants (umami.constants.ts, `DEFAULT_CONFIG`) -/

/-- DEFAULT_CONFIG.SYNC_BUFFER_HOURS in umami.constants.ts. -/
def SYNC_BUFFER_HOURS : Int := 12

/-- DEFAULT_CONFIG.INITIAL_SYNC_DAYS in umami.constants.ts; the service reads
the env var with the literal fallback `'7'`. -/
def INITIAL_SYNC_DAYS_DEFAULT : Nat := 7

/-- DEFAULT_CONFIG.API_PAGE_SIZE in umami.constants.ts: the page size
`fetchSessionsPage` requests (its `pageSize` default parameter). -/
def API_PAGE_SIZE : Nat := 100

/-! ### Error taxonomy

One constructor per distinct thrown error reachable in the modelled code. -/

/-- Errors thrown by the modelled sync engine. -/
inductive SyncError where
  /-- `'Database connection not established'` (null connection check). -/
  | dbNotConnected
  /-- `ERROR_MESSAGES.DB_CONNECTION_FAILED` from `getSessionsCreatedAfter`. -/
  | sourceFailed
  /-- `ERROR_MESSAGES.API_AUTH_FAILED` from `authenticate`. -/
  | authFailed
  /-- `ERROR_MESSAGES.API_REQUEST_FAILED` from `fetchSessionsPage`. -/
  | apiRequestFailed
  /-- `'No users were updated with session IDs'`. -/
  | noUsersUpdated
deriving DecidableEq, Repr

/-! ### Data model -/

/-- A row of the MySQL `session` table as consumed by the service
(`MySqlSession` in umami.types.ts).  The typed adapter only populates
`session_id`, `created_at`, `distinct_id`; `syncSessionIdsForWindow`
additionally reads `session.website_id` dynamically, so the row carries it as
an `Option` (the adapter's own rows have `none` there). -/
structure MySqlSession where
  session_id : String
  created_at : Int
  distinct_id : String
  website_id : Option String
deriving DecidableEq, Repr

/-- A session record returned by the Umami API (`UmamiSession` in
umami.types.ts). -/
structure UmamiSession where
  id : String
  websiteId : String
  browser : String
  os : String
  device : String
  screen : String
  language : String
  country : Option String
  region : Option String
  city : Option String
  firstAt : Int
  lastAt : Int
  visits : Nat
  views : String
  createdAt : Int
deriving DecidableEq, Repr

/-- The `umamiAnalytics` snapshot `updateSingleUserAnalytics` writes into a
user document. -/
structure UmamiAnalytics where
  id : String
  websiteId : String
  browser : String
  os : String
  device : String
  screen : String
  language : String
  country : String
  region : String
  city : String
  firstAt : Int
  lastAt : Int
  visits : Nat
  views : String
  createdAt : Int
deriving DecidableEq, Repr

/-- A document of the `users` collection, restricted to the fields this
engine reads or writes. -/
structure UserDoc where
  email : String
  session_id : Option String
  umamiAnalytics : Option UmamiAnalytics
  updatedAt : Option Int
deriving DecidableEq, Repr

/-- One entry of `umamiSync.websiteSyncStatus` (`WebsiteSyncStatus` in
umami.types.ts); all fields are optional in the document.  `lastDaySynced`
is stored by the code as the UTC calendar-date string of an instant
(`toISOString().split('T')[0]`); we model the calendar date by its day
number since the epoch, an injective image adequate for these claims.
`errorCount` is read with Mongo `$inc` semantics (absent ≡ 0), so it is a
plain `Nat` here. -/
structure PartitionStatus where
  lastSync : Option Int
  lastDaySynced : Option Int
  sessionsProcessed : Option Nat
  errorCount : Nat
deriving DecidableEq, Repr

/-- One page returned by the sessions endpoint (`UmamiApiResponse`):
the records plus the `pageSize` field echoed by the server. -/
structure ApiPage where
  data : List UmamiSession
  pageSize : Nat
deriving DecidableEq, Repr

/-- The mutable world of one run: the `users` collection, the
`systemconfigs` singleton's `umamiSync` subdocument, the API adapter's
in-memory token, plus two instrumentation counters (`authCalls` counts
`authenticate()` invocations; `timeIdx` is the clock-read cursor). -/
structure SyncState where
  users : List UserDoc
  lastSuccessfulSync : Option Int
  lastSessionSync : Option Int
  lastAnalyticsSync : Option Int
  websiteSyncStatus : List (String × PartitionStatus)
  apiToken : Option String
  authCalls : Nat
  timeIdx : Nat

/-- Environment of one run: configuration and the outcome oracles of the
external collaborators.  `websiteIds` is the parsed `UMAMI_WEBSITE_IDS`
list (both `UmamiService.websiteIds` and `UmamiApiService.websiteIds` are
computed by the same `getWebsiteIds`).  `pages w p` is the response of the
sessions endpoint for website `w`, page `p`, for this run's window. -/
structure Env where
  dbConnected : Bool
  websiteIds : List String
  initialSyncDays : Option Nat
  timeline : Nat → Int
  sessionsResult : Except SyncError (List MySqlSession)
  authResult : Except SyncError String
  pages : String → Nat → Except SyncError ApiPage

/-- One `new Date()` / `Date.now()` call: read the clock oracle and advance
the cursor. -/
def readClock (env : Env) (s : SyncState) : Int × SyncState :=
  (env.timeline s.timeIdx, { s with timeIdx := s.timeIdx + 1 })

/-! ### getWebsiteIds (umami.service.ts lines 774–777)

`websiteIdsStr.split(',').map(id => id.trim()).filter(Boolean)`, embedded at
the character level so the JS string operations are spelled out. -/

/-- JS `str.split(',')`: split on every comma; `''.split(',')` is `['']`. -/
def jsSplitComma : List Char → List (List Char)
  | [] => [[]]
  | c :: cs =>
    if c = ',' then [] :: jsSplitComma cs
    else
      match jsSplitComma cs with
      | [] => [[c]]
      | t :: ts => (c :: t) :: ts

/-- JS `String.prototype.trim`: drop whitespace from both ends. -/
def trimChars (l : List Char) : List Char :=
  ((l.dropWhile Char.isWhitespace).reverse.dropWhile Char.isWhitespace).reverse

/-- `getWebsiteIds` of umami.service.ts: split the (possibly absent)
`UMAMI_WEBSITE_IDS` env string on commas, trim each token, drop falsy
(empty) tokens. -/
def getWebsiteIds (envVar : Option (List Char)) : List (List Char) :=
  ((jsSplitComma (envVar.getD [])).map trimChars).filter (fun id => !id.isEmpty)

/-! ### fetchAllSessions (umamiApi.service.ts lines 142–195)

`page` starts at 1; each iteration appends the page's `data`, continues
while `response.data.length === response.pageSize`, and breaks once
`page > 1000` after the increment (so at most 1000 pages are fetched).
The fuel argument is the remaining page budget `1001 - page`; the source's
`page > 1000` break fires strictly before the fuel runs out. -/

/-- The pagination loop body of `fetchAllSessions`. -/
def fetchGo (resp : Nat → Except SyncError ApiPage) :
    Nat → List UmamiSession → Nat → Except SyncError (List UmamiSession)
  | _, acc, 0 => .ok acc
  | page, acc, fuel + 1 =>
    match resp page with
    | .error e => .error e
    | .ok r =>
      let acc' := acc ++ r.data
      if r.data.length = r.pageSize then
        if page + 1 > 1000 then .ok acc'
        else fetchGo resp (page + 1) acc' fuel
      else .ok acc'

/-- `fetchAllSessions`: paginate from page 1 over the per-page response
oracle `resp`. -/
def fetchAllSessions (resp : Nat → Except SyncError ApiPage) :
    Except SyncError (List UmamiSession) :=
  fetchGo resp 1 [] 1000

/-- The records of page `i` (empty for a failed page; used only to state
results about runs whose consulted pages succeeded). -/
def pageData (resp : Nat → Except SyncError ApiPage) (i : Nat) :
    List UmamiSession :=
  match resp i with
  | .ok r => r.data
  | .error _ => []

/-- Concatenation of the records of pages `p, p+1, …, p+n-1` in order. -/
def concatPages (resp : Nat → Except SyncError ApiPage) (p : Nat) :
    Nat → List UmamiSession
  | 0 => []
  | n + 1 => pageData resp p ++ concatPages resp (p + 1) n

/-! ### Status map helpers (Mongo writes to `umamiSync.websiteSyncStatus`) -/

/-- Lookup a website's `PartitionStatus` subdocument. -/
def getStatus : List (String × PartitionStatus) → String → Option PartitionStatus
  | [], _ => none
  | (k, v) :: rest, w => if k = w then some v else getStatus rest w

/-- Mongo `$inc` semantics on a possibly-absent `errorCount`: absent ≡ 0. -/
def getErrorCount (l : List (String × PartitionStatus)) (w : String) : Nat :=
  match getStatus l w with
  | some ps => ps.errorCount
  | none => 0

/-- `$set` of the whole `websiteSyncStatus.<w>` subdocument (upsert). -/
def setStatus : List (String × PartitionStatus) → String → PartitionStatus →
    List (String × PartitionStatus)
  | [], w, st => [(w, st)]
  | (k, v) :: rest, w, st =>
    if k = w then (k, st) :: rest else (k, v) :: setStatus rest w st

/-- `$inc` of `websiteSyncStatus.<w>.errorCount` by 1 (upsert): a missing
path is created holding 1. -/
def incStatus : List (String × PartitionStatus) → String →
    List (String × PartitionStatus)
  | [], w => [(w, ⟨none, none, none, 1⟩)]
  | (k, v) :: rest, w =>
    if k = w then (k, { v with errorCount := v.errorCount + 1 }) :: rest
    else (k, v) :: incStatus rest w

/-- Mongo `updateOne`: update the first document matching `p` with `f`;
returns the `matchedCount` (0 or 1) and the new collection.  With the code's
`$set` payloads (which always include a fresh `updatedAt`), `modifiedCount`
coincides with `matchedCount`. -/
def updateFirst (p : UserDoc → Bool) (f : UserDoc → UserDoc) :
    List UserDoc → Nat × List UserDoc
  | [] => (0, [])
  | u :: us =>
    if p u then (1, f u :: us)
    else
      let r := updateFirst p f us
      (r.1, u :: r.2)

/-- The calendar date (`toISOString().split('T')[0]`) of an instant,
modelled as its UTC day number (floor division by 86400000 ms). -/
def isoDay (t : Int) : Int := Int.fdiv t 86400000

/-- `clearToken` of umamiApi.service.ts: `this.currentToken = null`. -/
def clearToken (s : SyncState) : SyncState := { s with apiToken := none }

/-! ### The orchestrator (window-based `UmamiService`) -/

/-- JS `String.prototype.toLowerCase`, modelled per character (the kernel
cannot evaluate core `String.toLower`, whose `mapAux` recursion is opaque;
this per-character map has the same behaviour on the ASCII identities the
service compares). -/
def jsToLower (s : String) : String := String.mk (s.data.map Char.toLower)

/-- The filter predicate of `syncSessionIdsForWindow` (line 451):
`configuredWebsiteIds.includes(session.website_id)`.  A row without the
dynamic `website_id` property compares as `undefined`, which is never in a
list of strings. -/
def sessionFromConfigured (env : Env) (r : MySqlSession) : Bool :=
  match r.website_id with
  | some id => env.websiteIds.any (fun y => y = id)
  | none => false

/-- Whether some user document matches a session row's identity filter
`{ email: session.distinct_id.toLowerCase() }`. -/
def userMatch (users : List UserDoc) (r : MySqlSession) : Bool :=
  users.any (fun u => u.email = jsToLower r.distinct_id)

/-- The per-row loop of `updateUserSessionsSequential` (lines 622–648):
each row issues an `updateOne` on `{email: distinct_id.toLowerCase()}`
setting `session_id` and a fresh `updatedAt`; `updatedCount` accumulates the
modified counts; per-row store errors are caught and skipped (store writes
in this model succeed, so the catch is never taken).  After the loop, a zero
total is thrown as `'No users were updated with session IDs'`. -/
def updateUserSessionsGo (env : Env) :
    List MySqlSession → Nat → SyncState → Except SyncError Unit × SyncState
  | [], updatedCount, s =>
    if updatedCount = 0 then (.error .noUsersUpdated, s) else (.ok (), s)
  | r :: rest, updatedCount, s =>
    let c := readClock env s
    let upd := updateFirst (fun u => u.email = jsToLower r.distinct_id)
      (fun u => { u with session_id := some r.session_id, updatedAt := some c.1 }) c.2.users
    updateUserSessionsGo env rest (updatedCount + upd.1) { c.2 with users := upd.2 }

/-- `updateUserSessionsSequential` (lines 611–655): check the database
connection, then run the sequential per-row loop. -/
def updateUserSessionsSequential (env : Env) (sessions : List MySqlSession)
    (s : SyncState) : Except SyncError Unit × SyncState :=
  if env.dbConnected then updateUserSessionsGo env sessions 0 s
  else (.error .dbNotConnected, s)

/-- `syncSessionIdsForWindow` (lines 435–480): fetch rows created after the
window start, short-circuit on an empty result, filter to configured
websites, short-circuit when the filter leaves nothing, else run the
sequential update (whose errors propagate through the rethrowing catch). -/
def syncSessionIdsForWindow (env : Env) (startDate endDate : Int)
    (s : SyncState) : Except SyncError Unit × SyncState :=
  match env.sessionsResult with
  | .error e => (.error e, s)
  | .ok sessions =>
    if sessions.length = 0 then (.ok (), s)
    else
      let filteredSessions := sessions.filter (sessionFromConfigured env)
      if filteredSessions.length = 0 then (.ok (), s)
      else updateUserSessionsSequential env filteredSessions s

/-- The `umamiAnalytics` snapshot `updateSingleUserAnalytics` writes
(lines 672–689); `x || ''` is the identity on strings and `Option.getD ""`
on the optional fields, and `String(session.views || 0)` maps the empty
string to `"0"`. -/
def snapshotOf (sess : UmamiSession) : UmamiAnalytics :=
  { id := sess.id
    websiteId := sess.websiteId
    browser := sess.browser
    os := sess.os
    device := sess.device
    screen := sess.screen
    language := sess.language
    country := sess.country.getD ""
    region := sess.region.getD ""
    city := sess.city.getD ""
    firstAt := sess.firstAt
    lastAt := sess.lastAt
    visits := sess.visits
    views := if sess.views = "" then "0" else sess.views
    createdAt := sess.createdAt }

/-- `updateSingleUserAnalytics` (lines 660–707) as invoked by the
per-session loop of `syncAnalyticsDataForWindow` (lines 525–545): with no
connection the thrown error is caught by the loop and the session skipped;
otherwise `updateOne` on `{session_id: session.id}` sets the analytics
snapshot and a fresh `updatedAt`. -/
def updateAnalyticsStep (env : Env) (sess : UmamiSession) (s : SyncState) :
    SyncState :=
  if env.dbConnected then
    let c := readClock env s
    let upd := updateFirst (fun u => u.session_id = some sess.id)
      (fun u => { u with umamiAnalytics := some (snapshotOf sess), updatedAt := some c.1 }) c.2.users
    { c.2 with users := upd.2 }
  else s

/-- The sequential per-session analytics update loop (lines 525–545);
per-session errors are caught and the loop continues. -/
def updateAnalyticsLoop (env : Env) :
    List UmamiSession → SyncState → SyncState
  | [], s => s
  | sess :: rest, s => updateAnalyticsLoop env rest (updateAnalyticsStep env sess s)

/-- `updateWebsiteSyncStatus` (lines 713–743): upsert the whole
`PartitionStatus` for a website with `errorCount` reset to 0; its own
errors (no connection) are caught and ignored. -/
def updateWebsiteSyncStatus (env : Env) (websiteId : String) (syncDay : Int)
    (sessionsProcessed : Nat) (s : SyncState) : SyncState :=
  if env.dbConnected then
    let c := readClock env s
    let st : PartitionStatus := ⟨some c.1, some syncDay, some sessionsProcessed, 0⟩
    { c.2 with websiteSyncStatus := setStatus c.2.websiteSyncStatus websiteId st }
  else s

/-- `incrementWebsiteErrorCount` (lines 748–769): `$inc` the website's
`errorCount` by 1; its own errors (no connection) are caught and ignored. -/
def incrementWebsiteErrorCount (env : Env) (websiteId : String)
    (s : SyncState) : SyncState :=
  if env.dbConnected then
    { s with websiteSyncStatus := incStatus s.websiteSyncStatus websiteId }
  else s

/-- The result of `fetchAllSessions(websiteId, startTimestamp, endTimestamp)`
for this run's (fixed) window. -/
def fetchForWebsite (env : Env) (w : String) :
    Except SyncError (List UmamiSession) :=
  fetchAllSessions (env.pages w)

/-- The per-website loop of `syncAnalyticsDataForWindow` (lines 507–585):
fetch all sessions for the website, `continue` on an empty result, else run
the per-session updates and upsert the website's status; any uncaught error
in the body (in this model: a fetch failure) is caught, the website's
`errorCount` incremented, and the loop continues with the next website. -/
def syncWebsiteLoop (env : Env) (endDay : Int) :
    List String → SyncState → SyncState
  | [], s => s
  | w :: rest, s =>
    match fetchForWebsite env w with
    | .error _ =>
      syncWebsiteLoop env endDay rest (incrementWebsiteErrorCount env w s)
    | .ok sessions =>
      if sessions.length = 0 then syncWebsiteLoop env endDay rest s
      else
        let s1 := updateAnalyticsLoop env sessions s
        let s2 := updateWebsiteSyncStatus env w (isoDay endDay) sessions.length s1
        syncWebsiteLoop env endDay rest s2

/-- `syncAnalyticsDataForWindow` (lines 485–606): authenticate once (the
call increments `authCalls`; on success the token is cached), run the
per-website loop over the configured website ids, and clear the token in a
`finally` on both the normal and the throwing path. -/
def syncAnalyticsDataForWindow (env : Env) (startDate endDate : Int)
    (s : SyncState) : Except SyncError Unit × SyncState :=
  match env.authResult with
  | .error e => (.error e, clearToken { s with authCalls := s.authCalls + 1 })
  | .ok tok =>
    let s1 := { s with authCalls := s.authCalls + 1, apiToken := some tok }
    let s2 := syncWebsiteLoop env endDate env.websiteIds s1
    (.ok (), clearToken s2)

/-- The window kinds of `determineSyncWindow`. -/
inductive SyncType where
  | initial
  | incremental
deriving DecidableEq, Repr

/-- The planned window. -/
structure SyncWindow where
  startDate : Int
  endDate : Int
  syncType : SyncType
deriving DecidableEq, Repr

/-- `determineSyncWindow` (lines 801–850): require the connection, read the
watermark, capture `today`; with no watermark the start is
`Date.now() - initialSyncDays` days (env-configured, literal default `'7'`)
and the kind is initial; with a watermark at `t` the start is
`t - SYNC_BUFFER_HOURS` hours and the kind is incremental; the end is
`today` in both branches. -/
def determineSyncWindow (env : Env) (s : SyncState) :
    Except SyncError SyncWindow × SyncState :=
  if env.dbConnected then
    let c := readClock env s
    match s.lastSuccessfulSync with
    | none =>
      let initialSyncDays : Int := env.initialSyncDays.getD INITIAL_SYNC_DAYS_DEFAULT
      let c2 := readClock env c.2
      (.ok ⟨c2.1 - initialSyncDays * 86400000, c.1, .initial⟩, c2.2)
    | some t =>
      (.ok ⟨t - SYNC_BUFFER_HOURS * 3600000, c.1, .incremental⟩, c.2)
  else (.error .dbNotConnected, s)

/-- `updateLastSuccessfulSync` (lines 855–889): `$set` all three watermark
fields to the run-start instant (the `$setOnInsert` bookkeeping evaluates a
`new Date()` while building the call); its own errors are caught and
ignored, so with no connection the state is untouched. -/
def updateLastSuccessfulSync (env : Env) (syncStartTime : Int)
    (s : SyncState) : SyncState :=
  if env.dbConnected then
    let c := readClock env s
    { c.2 with
      lastSuccessfulSync := some syncStartTime
      lastSessionSync := some syncStartTime
      lastAnalyticsSync := some syncStartTime }
  else s

/-- The planning and session-sync prefix of `syncAllData` (lines 414–419),
grouped so run-level statements can hypothesise on its outcome: plan the
window, then sync session ids over it; either failure aborts. -/
def planAndSession (env : Env) (s : SyncState) :
    Except SyncError SyncWindow × SyncState :=
  match determineSyncWindow env s with
  | (.error e, s1) => (.error e, s1)
  | (.ok w, s1) =>
    match syncSessionIdsForWindow env w.startDate w.endDate s1 with
    | (.error e, s2) => (.error e, s2)
    | (.ok _, s2) => (.ok w, s2)

/-- `syncAllData` (lines 406–430): capture the run-start instant, plan the
window and run the session phase (aborting on their errors), run the
analytics phase (aborting on its errors), and only then write the watermark
with the captured run-start instant.  The top-level catch logs and
rethrows, leaving the semantics unchanged. -/
def syncAllData (env : Env) (s0 : SyncState) :
    Except SyncError Unit × SyncState :=
  let c := readClock env s0
  match planAndSession env c.2 with
  | (.error e, s1) => (.error e, s1)
  | (.ok w, s1) =>
    match syncAnalyticsDataForWindow env w.startDate w.endDate s1 with
    | (.error e, s2) => (.error e, s2)
    | (.ok _, s2) => (.ok (), updateLastSuccessfulSync env c.1 s2)

/-! ### Lemmas: pagination -/

/-- Generalized stop lemma for the pagination loop: if the `n` pages from
`p` on are full (their length equals their `pageSize` field, the condition
the code tests) and page `p + n` is not, and the ceiling is not hit, the
loop returns the pages `p … p+n` appended to the accumulator. -/
theorem fetchGo_stop (resp : Nat → Except SyncError ApiPage) :
    ∀ (n p : Nat) (acc : List UmamiSession) (fuel : Nat),
      1 ≤ p → p + n ≤ 1000 → n + 1 ≤ fuel →
      (∀ i, p ≤ i → i < p + n →
        ∃ r, resp i = .ok r ∧ r.data.length = r.pageSize) →
      (∃ r, resp (p + n) = .ok r ∧ r.data.length ≠ r.pageSize) →
      fetchGo resp p acc fuel = .ok (acc ++ concatPages resp p (n + 1)) := by
  intro n
  induction n with
  | zero =>
    intro p acc fuel hp h1000 hfuel _hfull hlast
    obtain ⟨r, hr, hne⟩ := hlast
    obtain ⟨f, rfl⟩ : ∃ f, fuel = f + 1 := ⟨fuel - 1, by omega⟩
    simp only [Nat.add_zero] at hr hne
    simp [fetchGo, hr, hne, concatPages, pageData]
  | succ n ih =>
    intro p acc fuel hp h1000 hfuel hfull hlast
    obtain ⟨f, rfl⟩ : ∃ f, fuel = f + 1 := ⟨fuel - 1, by omega⟩
    obtain ⟨r, hr, hlen⟩ := hfull p (le_refl p) (by omega)
    have hnb : ¬ (p + 1 > 1000) := by omega
    have hrec := ih (p + 1) (acc ++ r.data) f (by omega) (by omega) (by omega)
      (fun i hi1 hi2 => hfull i (by omega) (by omega))
      (by
        obtain ⟨r2, hr2, hne2⟩ := hlast
        exact ⟨r2, by rw [show p + 1 + n = p + (n + 1) by omega]; exact hr2, hne2⟩)
    simp only [fetchGo, hr, hlen, if_true, hnb, if_false]
    rw [hrec, List.append_assoc]
    have : pageData resp p = r.data := by simp [pageData, hr]
    rw [show concatPages resp p (n + 1 + 1) = pageData resp p ++ concatPages resp (p + 1) (n + 1) from rfl, this]

/-- Generalized bound lemma: the pagination loop either propagates a page
error or returns the concatenation of at most `fuel` consecutive pages. -/
theorem fetchGo_bound (resp : Nat → Except SyncError ApiPage) :
    ∀ (fuel p : Nat) (acc : List UmamiSession),
      (∃ e, fetchGo resp p acc fuel = .error e) ∨
      (∃ k, k ≤ fuel ∧ fetchGo resp p acc fuel = .ok (acc ++ concatPages resp p k)) := by
  intro fuel
  induction fuel with
  | zero =>
    intro p acc
    exact Or.inr ⟨0, le_refl 0, by simp [fetchGo, concatPages]⟩
  | succ f ih =>
    intro p acc
    cases hr : resp p with
    | error e => exact Or.inl ⟨e, by simp [fetchGo, hr]⟩
    | ok r =>
      by_cases hlen : r.data.length = r.pageSize
      · by_cases hpb : p + 1 > 1000
        · refine Or.inr ⟨1, by omega, ?_⟩
          simp [fetchGo, hr, hlen, hpb, concatPages, pageData]
        · rcases ih (p + 1) (acc ++ r.data) with ⟨e, he⟩ | ⟨k, hk, hok⟩
          · exact Or.inl ⟨e, by simp [fetchGo, hr, hlen, hpb]; exact he⟩
          · refine Or.inr ⟨k + 1, by omega, ?_⟩
            simp only [fetchGo, hr, hlen, if_true, hpb, if_false]
            rw [hok, List.append_assoc]
            have : pageData resp p = r.data := by simp [pageData, hr]
            rw [show concatPages resp p (k + 1) = pageData resp p ++ concatPages resp (p + 1) k from rfl, this]
      · refine Or.inr ⟨1, by omega, ?_⟩
        simp [fetchGo, hr, hlen, concatPages, pageData]

/-! ### Claim C4 and C7 theorems -/

/-- C4: for every per-page response oracle, `fetchAllSessions` requests
consecutive pages starting at page 1 and stops exactly at the first page
whose size is smaller than the requested page size (100, with the server
echoing the requested `pageSize`), returning the concatenation of the
fetched pages in order. -/
theorem C4_fetchAllSessions_pagination (resp : Nat → Except SyncError ApiPage)
    (k : Nat) (h1 : 1 ≤ k) (h2 : k ≤ 1000)
    (hfull : ∀ i, 1 ≤ i → i < k →
      ∃ r, resp i = .ok r ∧ r.pageSize = API_PAGE_SIZE ∧ r.data.length = API_PAGE_SIZE)
    (hlast : ∃ r, resp k = .ok r ∧ r.pageSize = API_PAGE_SIZE ∧ r.data.length < API_PAGE_SIZE) :
    fetchAllSessions resp = .ok (concatPages resp 1 k) := by
  have hgo := fetchGo_stop resp (k - 1) 1 [] 1000 (le_refl 1) (by omega) (by omega)
    (fun i hi1 hi2 => by
      obtain ⟨r, hr, hps, hlen⟩ := hfull i hi1 (by omega)
      exact ⟨r, hr, by rw [hlen, hps]⟩)
    (by
      obtain ⟨r, hr, hps, hlen⟩ := hlast
      refine ⟨r, ?_, ?_⟩
      · rw [show 1 + (k - 1) = k by omega]; exact hr
      · rw [hps]; omega)
  rw [fetchAllSessions, hgo, List.nil_append, show k - 1 + 1 = k by omega]

/-- A fixed concrete API session record, used by concrete scenarios. -/
def sessW : UmamiSession :=
  ⟨"sw", "A", "", "", "", "", "", none, none, none, 0, 0, 0, "", 0⟩

/-- The response oracle of the spec scenario: pages of sizes
[100, 100, 37] for requested page size 100. -/
def respW4 : Nat → Except SyncError ApiPage := fun p =>
  .ok ⟨List.replicate (if p < 3 then 100 else 37) sessW, 100⟩

/-- Witness for C4: on page sizes [100, 100, 37] the adapter stops after the
third page and returns 237 records. -/
theorem C4_witness :
    fetchAllSessions respW4 = .ok (concatPages respW4 1 3) ∧
    (fetchAllSessions respW4).map List.length = .ok 237 := by
  have h := C4_fetchAllSessions_pagination respW4 3 (by omega) (by omega)
    (fun i hi1 hi2 =>
      ⟨⟨List.replicate 100 sessW, 100⟩, by simp [respW4, hi2], rfl, by
        simp [API_PAGE_SIZE]⟩)
    ⟨⟨List.replicate 37 sessW, 100⟩, by norm_num [respW4], rfl, by
      norm_num [API_PAGE_SIZE]⟩
  refine ⟨h, ?_⟩
  rw [h]
  norm_num [concatPages, pageData, respW4, Except.map]

/-- C7: for every per-page response oracle, the pagination loop terminates
having fetched at most 1000 pages: the result is either a propagated page
error or the concatenation of the first `k ≤ 1000` pages.  In particular,
even an oracle whose every page is full cannot make the adapter fetch past
page 1000. -/
theorem C7_pagination_bounded (resp : Nat → Except SyncError ApiPage) :
    (∃ e, fetchAllSessions resp = .error e) ∨
    (∃ k, k ≤ 1000 ∧ fetchAllSessions resp = .ok (concatPages resp 1 k)) := by
  have h := fetchGo_bound resp 1000 1 []
  simpa [fetchAllSessions] using h

/-! ### Lemmas: trimming (claim C10) -/

/-- The head surviving `dropWhile p` does not satisfy `p`. -/
theorem dropWhile_head_not_sat {α : Type} (p : α → Bool) :
    ∀ (l : List α) (a : α), (l.dropWhile p).head? = some a → p a = false := by
  intro l
  induction l with
  | nil => intro a h; simp [List.dropWhile] at h
  | cons x xs ih =>
    intro a h
    by_cases hx : p x
    · rw [List.dropWhile_cons, if_pos hx] at h
      exact ih a h
    · rw [List.dropWhile_cons, if_neg hx] at h
      simp only [List.head?_cons, Option.some.injEq] at h
      subst h
      simpa using hx

/-- `dropWhile` removes an initial segment, so a last element that does not
satisfy `p` survives it. -/
theorem dropWhile_getLast_not_sat {α : Type} (p : α → Bool) :
    ∀ (l : List α), (∀ a, l.getLast? = some a → p a = false) →
      ∀ b, (l.dropWhile p).getLast? = some b → p b = false := by
  intro l
  induction l with
  | nil => intro _ b hb; simp [List.dropWhile] at hb
  | cons x xs ih =>
    intro hlast b hb
    by_cases hx : p x
    · rw [List.dropWhile_cons, if_pos hx] at hb
      cases xs with
      | nil => simp [List.dropWhile] at hb
      | cons y ys =>
        exact ih (fun a ha => hlast a (by rw [List.getLast?_cons_cons]; exact ha)) b hb
    · rw [List.dropWhile_cons, if_neg hx] at hb
      exact hlast b hb

/-- The first character of a trimmed string is not whitespace. -/
theorem trimChars_head_not_ws (l : List Char) (a : Char)
    (h : (trimChars l).head? = some a) : a.isWhitespace = false := by
  rw [trimChars, List.head?_reverse] at h
  refine dropWhile_getLast_not_sat Char.isWhitespace
    (l.dropWhile Char.isWhitespace).reverse (fun c hc => ?_) a h
  rw [List.getLast?_reverse] at hc
  exact dropWhile_head_not_sat Char.isWhitespace l c hc

/-- The last character of a trimmed string is not whitespace. -/
theorem trimChars_getLast_not_ws (l : List Char) (a : Char)
    (h : (trimChars l).getLast? = some a) : a.isWhitespace = false := by
  rw [trimChars, List.getLast?_reverse] at h
  exact dropWhile_head_not_sat Char.isWhitespace
    (l.dropWhile Char.isWhitespace).reverse a h

/-- A list with no whitespace at either end is a fixed point of `trimChars`. -/
theorem trimChars_eq_self (l : List Char)
    (h1 : ∀ a, l.head? = some a → a.isWhitespace = false)
    (h2 : ∀ a, l.getLast? = some a → a.isWhitespace = false) :
    trimChars l = l := by
  have hd : l.dropWhile Char.isWhitespace = l := by
    cases l with
    | nil => rfl
    | cons x xs =>
      rw [List.dropWhile_cons, if_neg (by simp [h1 x rfl])]
  rw [trimChars, hd]
  have hr : l.reverse.dropWhile Char.isWhitespace = l.reverse := by
    cases hrev : l.reverse with
    | nil => rfl
    | cons x xs =>
      rw [List.dropWhile_cons, if_neg ?_]
      have : l.getLast? = some x := by
        rw [← List.head?_reverse, hrev, List.head?_cons]
      simp [h2 x this]
  rw [hr, List.reverse_reverse]

/-- `trimChars` is idempotent. -/
theorem trimChars_idem (l : List Char) : trimChars (trimChars l) = trimChars l :=
  trimChars_eq_self (trimChars l) (trimChars_head_not_ws l) (trimChars_getLast_not_ws l)

/-! ### Claim C10 theorem -/

/-- C10: `getWebsiteIds` returns exactly the non-empty trimmed
comma-separated tokens of the env string; an unset or empty variable yields
the empty list, and no returned id is empty or carries leading or trailing
whitespace (each is a `trimChars` fixed point). -/
theorem C10_getWebsiteIds_spec :
    getWebsiteIds none = [] ∧ getWebsiteIds (some []) = [] ∧
    (∀ v id, id ∈ getWebsiteIds v ↔
      (id ≠ [] ∧ ∃ t, t ∈ jsSplitComma (v.getD []) ∧ id = trimChars t)) ∧
    (∀ v id, id ∈ getWebsiteIds v → trimChars id = id) := by
  have hmem : ∀ (v : Option (List Char)) (id : List Char),
      id ∈ getWebsiteIds v ↔
        (id ≠ [] ∧ ∃ t, t ∈ jsSplitComma (v.getD []) ∧ id = trimChars t) := by
    intro v id
    simp only [getWebsiteIds, List.mem_filter, List.mem_map]
    constructor
    · rintro ⟨⟨t, ht, rfl⟩, hne⟩
      refine ⟨by simpa using hne, t, ht, rfl⟩
    · rintro ⟨hne, t, ht, rfl⟩
      exact ⟨⟨t, ht, rfl⟩, by simpa using hne⟩
  refine ⟨rfl, rfl, hmem, ?_⟩
  intro v id hid
  obtain ⟨_, t, _, rfl⟩ := (hmem v id).mp hid
  exact trimChars_idem t

/-- Witness for C10: `" a , ,b "` parses to the two trimmed non-empty ids
`"a"` and `"b"`, and a parsed id is its own trim. -/
theorem C10_witness :
    getWebsiteIds (some [' ', 'a', ',', ' ', ',', 'b', ' ']) = [['a'], ['b']] ∧
    trimChars ['a'] = ['a'] := by
  refine ⟨by decide, ?_⟩
  exact C10_getWebsiteIds_spec.2.2.2 (some [' ', 'a', ',', ' ', ',', 'b', ' '])
    ['a'] (by decide)

/-! ### Claim C3 theorem -/

/-- C3: with a reachable watermark store, the planned window is: no
watermark → start = now (`Date.now()`) minus `initialSyncDays` days
(env-configured, default 7), end = `today`, kind initial; watermark at `t` →
start = exactly `t` minus `SYNC_BUFFER_HOURS` (12) hours, end = `today`,
kind incremental. -/
theorem C3_determineSyncWindow_spec (env : Env) (s : SyncState)
    (hdb : env.dbConnected = true) :
    (s.lastSuccessfulSync = none →
      determineSyncWindow env s =
        (.ok ⟨env.timeline (s.timeIdx + 1) -
            ((env.initialSyncDays.getD INITIAL_SYNC_DAYS_DEFAULT : Nat) : Int) * 86400000,
          env.timeline s.timeIdx, .initial⟩,
         { s with timeIdx := s.timeIdx + 1 + 1 })) ∧
    (∀ t, s.lastSuccessfulSync = some t →
      determineSyncWindow env s =
        (.ok ⟨t - SYNC_BUFFER_HOURS * 3600000,
          env.timeline s.timeIdx, .incremental⟩,
         { s with timeIdx := s.timeIdx + 1 })) := by
  constructor
  · intro h
    simp [determineSyncWindow, readClock, hdb, h]
  · intro t h
    simp [determineSyncWindow, readClock, hdb, h]

/-- A strictly increasing concrete clock for scenario runs. -/
def timelineW : Nat → Int := fun i => 5000 + i

/-- A concrete sync state with a watermark at instant 1000000. -/
def stW3 : SyncState :=
  ⟨[], some 1000000, none, none, [], none, 0, 0⟩

/-- A concrete environment with a reachable store and no configured
websites. -/
def envW3 : Env :=
  ⟨true, [], none, timelineW, .ok [], .ok "tok", fun _ _ => .error .apiRequestFailed⟩

/-- Witness for C3: for a watermark at `T = 1000000` and buffer 12h the
planned window starts exactly at `T - 43200000` ms and the kind is
incremental. -/
theorem C3_witness :
    determineSyncWindow envW3 stW3 =
      (.ok ⟨1000000 - 43200000, 5000, .incremental⟩, { stW3 with timeIdx := 1 }) := by
  have h := (C3_determineSyncWindow_spec envW3 stW3 rfl).2 1000000 rfl
  simpa [envW3, stW3, timelineW, SYNC_BUFFER_HOURS] using h

/-! ### Lemmas: status map operations -/

theorem getStatus_set_self (l : List (String × PartitionStatus)) (w : String)
    (st : PartitionStatus) : getStatus (setStatus l w st) w = some st := by
  induction l with
  | nil => simp [setStatus, getStatus]
  | cons kv rest ih =>
    by_cases h : kv.1 = w
    · simp [setStatus, getStatus, h]
    · simp [setStatus, getStatus, h, ih]

theorem getStatus_set_ne (l : List (String × PartitionStatus)) (w' w : String)
    (st : PartitionStatus) (h : w' ≠ w) :
    getStatus (setStatus l w' st) w = getStatus l w := by
  induction l with
  | nil => simp [setStatus, getStatus, h]
  | cons kv rest ih =>
    by_cases hk : kv.1 = w'
    · simp [setStatus, getStatus, hk, h]
    · simp only [setStatus, if_neg hk]
      by_cases hw : kv.1 = w
      · simp [getStatus, hw]
      · simp [getStatus, hw, ih]

theorem getStatus_inc_ne (l : List (String × PartitionStatus)) (w' w : String)
    (h : w' ≠ w) : getStatus (incStatus l w') w = getStatus l w := by
  induction l with
  | nil => simp [incStatus, getStatus, h]
  | cons kv rest ih =>
    by_cases hk : kv.1 = w'
    · simp [incStatus, getStatus, hk, h]
    · simp only [incStatus, if_neg hk]
      by_cases hw : kv.1 = w
      · simp [getStatus, hw]
      · simp [getStatus, hw, ih]

theorem getErrorCount_inc_self (l : List (String × PartitionStatus)) (w : String) :
    getErrorCount (incStatus l w) w = getErrorCount l w + 1 := by
  induction l with
  | nil => simp [incStatus, getStatus, getErrorCount]
  | cons kv rest ih =>
    by_cases hk : kv.1 = w
    · simp [incStatus, getStatus, getErrorCount, hk]
    · simp only [incStatus, if_neg hk, getErrorCount, getStatus, hk, if_false] at ih ⊢
      exact ih

/-! ### Lemmas: field preservation across the phases -/

theorem updateUserSessionsGo_pres (env : Env) :
    ∀ (l : List MySqlSession) (n : Nat) (s : SyncState),
      (updateUserSessionsGo env l n s).2.lastSuccessfulSync = s.lastSuccessfulSync ∧
      (updateUserSessionsGo env l n s).2.authCalls = s.authCalls ∧
      (updateUserSessionsGo env l n s).2.websiteSyncStatus = s.websiteSyncStatus ∧
      (updateUserSessionsGo env l n s).2.apiToken = s.apiToken := by
  intro l
  induction l with
  | nil =>
    intro n s
    by_cases h : n = 0 <;> simp [updateUserSessionsGo, h]
  | cons r rest ih =>
    intro n s
    simpa [updateUserSessionsGo, readClock] using ih _ _

theorem syncSessionIds_pres (env : Env) (a b : Int) (s : SyncState) :
    (syncSessionIdsForWindow env a b s).2.lastSuccessfulSync = s.lastSuccessfulSync ∧
    (syncSessionIdsForWindow env a b s).2.authCalls = s.authCalls ∧
    (syncSessionIdsForWindow env a b s).2.websiteSyncStatus = s.websiteSyncStatus ∧
    (syncSessionIdsForWindow env a b s).2.apiToken = s.apiToken := by
  cases hr : env.sessionsResult with
  | error e => simp [syncSessionIdsForWindow, hr]
  | ok rows =>
    by_cases h0 : rows.length = 0
    · simp [syncSessionIdsForWindow, hr, h0]
    · by_cases h1 : (rows.filter (sessionFromConfigured env)).length = 0
      · simp [syncSessionIdsForWindow, hr, h0, h1]
      · by_cases hdb : env.dbConnected
        · simpa [syncSessionIdsForWindow, hr, h0, h1, updateUserSessionsSequential, hdb]
            using updateUserSessionsGo_pres env (rows.filter (sessionFromConfigured env)) 0 s
        · simp [syncSessionIdsForWindow, hr, h0, h1, updateUserSessionsSequential, hdb]

theorem updateAnalyticsLoop_pres (env : Env) :
    ∀ (l : List UmamiSession) (s : SyncState),
      (updateAnalyticsLoop env l s).lastSuccessfulSync = s.lastSuccessfulSync ∧
      (updateAnalyticsLoop env l s).authCalls = s.authCalls ∧
      (updateAnalyticsLoop env l s).websiteSyncStatus = s.websiteSyncStatus ∧
      (updateAnalyticsLoop env l s).apiToken = s.apiToken := by
  intro l
  induction l with
  | nil => intro s; simp [updateAnalyticsLoop]
  | cons x rest ih =>
    intro s
    by_cases hdb : env.dbConnected
    · simpa [updateAnalyticsLoop, updateAnalyticsStep, readClock, hdb] using ih _
    · simpa [updateAnalyticsLoop, updateAnalyticsStep, hdb] using ih _

theorem syncWebsiteLoop_pres (env : Env) (endD : Int) :
    ∀ (ids : List String) (s : SyncState),
      (syncWebsiteLoop env endD ids s).lastSuccessfulSync = s.lastSuccessfulSync ∧
      (syncWebsiteLoop env endD ids s).authCalls = s.authCalls ∧
      (syncWebsiteLoop env endD ids s).apiToken = s.apiToken := by
  intro ids
  induction ids with
  | nil => intro s; simp [syncWebsiteLoop]
  | cons w rest ih =>
    intro s
    cases hf : fetchForWebsite env w with
    | error e =>
      by_cases hdb : env.dbConnected
      · simpa [syncWebsiteLoop, hf, incrementWebsiteErrorCount, hdb] using ih _
      · simpa [syncWebsiteLoop, hf, incrementWebsiteErrorCount, hdb] using ih _
    | ok sess =>
      by_cases h0 : sess.length = 0
      · simpa [syncWebsiteLoop, hf, h0] using ih _
      · have hl := updateAnalyticsLoop_pres env sess s
        have hstep : syncWebsiteLoop env endD (w :: rest) s =
            syncWebsiteLoop env endD rest (updateWebsiteSyncStatus env w
              (isoDay endD) sess.length (updateAnalyticsLoop env sess s)) := by
          simp [syncWebsiteLoop, hf, h0]
        have h2 := ih (updateWebsiteSyncStatus env w (isoDay endD) sess.length
          (updateAnalyticsLoop env sess s))
        have h3 : (updateWebsiteSyncStatus env w (isoDay endD) sess.length
              (updateAnalyticsLoop env sess s)).lastSuccessfulSync = s.lastSuccessfulSync ∧
            (updateWebsiteSyncStatus env w (isoDay endD) sess.length
              (updateAnalyticsLoop env sess s)).authCalls = s.authCalls ∧
            (updateWebsiteSyncStatus env w (isoDay endD) sess.length
              (updateAnalyticsLoop env sess s)).apiToken = s.apiToken := by
          by_cases hdb : env.dbConnected
          · refine ⟨?_, ?_, ?_⟩ <;>
              simp only [updateWebsiteSyncStatus, hdb, if_true, readClock]
            · exact hl.1
            · exact hl.2.1
            · exact hl.2.2.2
          · refine ⟨?_, ?_, ?_⟩ <;>
              simp only [updateWebsiteSyncStatus, hdb, if_false]
            · exact hl.1
            · exact hl.2.1
            · exact hl.2.2.2
        rw [hstep]
        exact ⟨h2.1.trans h3.1, h2.2.1.trans h3.2.1, h2.2.2.trans h3.2.2⟩

theorem syncAnalytics_pres (env : Env) (a b : Int) (s : SyncState) :
    (syncAnalyticsDataForWindow env a b s).2.lastSuccessfulSync = s.lastSuccessfulSync ∧
    (syncAnalyticsDataForWindow env a b s).2.authCalls = s.authCalls + 1 ∧
    (syncAnalyticsDataForWindow env a b s).2.apiToken = none := by
  cases ha : env.authResult with
  | error e => simp [syncAnalyticsDataForWindow, ha, clearToken]
  | ok tok =>
    have h := syncWebsiteLoop_pres env b env.websiteIds
      { s with authCalls := s.authCalls + 1, apiToken := some tok }
    simp only [syncAnalyticsDataForWindow, ha]
    exact ⟨h.1, h.2.1, rfl⟩

theorem determineSyncWindow_pres (env : Env) (s : SyncState) :
    (determineSyncWindow env s).2.lastSuccessfulSync = s.lastSuccessfulSync ∧
    (determineSyncWindow env s).2.authCalls = s.authCalls ∧
    (determineSyncWindow env s).2.users = s.users ∧
    (determineSyncWindow env s).2.websiteSyncStatus = s.websiteSyncStatus ∧
    (determineSyncWindow env s).2.apiToken = s.apiToken := by
  by_cases hdb : env.dbConnected
  · cases h : s.lastSuccessfulSync <;> simp [determineSyncWindow, readClock, hdb, h]
  · simp [determineSyncWindow, hdb]

theorem planAndSession_pres (env : Env) (s : SyncState) :
    (planAndSession env s).2.lastSuccessfulSync = s.lastSuccessfulSync ∧
    (planAndSession env s).2.authCalls = s.authCalls ∧
    (planAndSession env s).2.apiToken = s.apiToken := by
  have hd := determineSyncWindow_pres env s
  rcases hw : determineSyncWindow env s with ⟨r, s1⟩
  rw [hw] at hd
  cases r with
  | error e => simp only [planAndSession, hw]; exact ⟨hd.1, hd.2.1, hd.2.2.2.2⟩
  | ok w =>
    have hs := syncSessionIds_pres env w.startDate w.endDate s1
    rcases hsr : syncSessionIdsForWindow env w.startDate w.endDate s1 with ⟨r2, s2⟩
    rw [hsr] at hs
    cases r2 with
    | error e =>
      simp only [planAndSession, hw, hsr]
      exact ⟨hs.1.trans hd.1, hs.2.1.trans hd.2.1, hs.2.2.2.trans hd.2.2.2.2⟩
    | ok u =>
      simp only [planAndSession, hw, hsr]
      exact ⟨hs.1.trans hd.1, hs.2.1.trans hd.2.1, hs.2.2.2.trans hd.2.2.2.2⟩

/-- A run whose planning and session prefix produced `.ok` ran against a
reachable store. -/
theorem planAndSession_ok_db (env : Env) (s : SyncState) (w : SyncWindow)
    (s' : SyncState) (h : planAndSession env s = (.ok w, s')) :
    env.dbConnected = true := by
  by_contra hdb
  have hdb' : env.dbConnected = false := by
    cases henv : env.dbConnected
    · rfl
    · exact absurd henv hdb
  simp [planAndSession, determineSyncWindow, hdb'] at h

/-- The analytics phase returns normally whenever authentication succeeds
(every per-website error inside the loop is caught). -/
theorem syncAnalytics_ok (env : Env) (a b : Int) (s : SyncState) (tok : String)
    (ha : env.authResult = .ok tok) :
    (syncAnalyticsDataForWindow env a b s).1 = .ok () := by
  simp [syncAnalyticsDataForWindow, ha]

/-! ### Claim C1 theorem -/

/-- C1: a run of `syncAllData` that returns normally has written
`lastSuccessfulSync` equal to the run-start instant (the very first clock
read, taken before the window was planned); a run that aborts with an error
leaves `lastSuccessfulSync` unchanged and propagates the error. -/
theorem C1_watermark_on_success_only (env : Env) (s0 : SyncState) :
    ((syncAllData env s0).1 = .ok () →
      (syncAllData env s0).2.lastSuccessfulSync = some (env.timeline s0.timeIdx)) ∧
    (∀ e, (syncAllData env s0).1 = .error e →
      (syncAllData env s0).2.lastSuccessfulSync = s0.lastSuccessfulSync) := by
  have hps_pres := planAndSession_pres env { s0 with timeIdx := s0.timeIdx + 1 }
  rcases hps : planAndSession env { s0 with timeIdx := s0.timeIdx + 1 } with ⟨r1, s1⟩
  rw [hps] at hps_pres
  cases r1 with
  | error e0 =>
    have hresult : syncAllData env s0 = (.error e0, s1) := by
      simp only [syncAllData, readClock, hps]
    rw [hresult]
    refine ⟨by simp, fun e he => ?_⟩
    exact hps_pres.1
  | ok w =>
    have hana_pres := syncAnalytics_pres env w.startDate w.endDate s1
    rcases hana : syncAnalyticsDataForWindow env w.startDate w.endDate s1 with ⟨r2, s2⟩
    rw [hana] at hana_pres
    cases r2 with
    | error e1 =>
      have hresult : syncAllData env s0 = (.error e1, s2) := by
        simp only [syncAllData, readClock, hps, hana]
      rw [hresult]
      refine ⟨by simp, fun e he => ?_⟩
      exact hana_pres.1.trans hps_pres.1
    | ok u =>
      have hdb := planAndSession_ok_db env { s0 with timeIdx := s0.timeIdx + 1 } w s1 hps
      have hresult : syncAllData env s0 =
          (.ok (), updateLastSuccessfulSync env (env.timeline s0.timeIdx) s2) := by
        simp only [syncAllData, readClock, hps, hana]
      rw [hresult]
      refine ⟨fun _ => ?_, fun e he => by simp at he⟩
      simp [updateLastSuccessfulSync, hdb, readClock]

/-- An initial concrete state: empty store, no watermark. -/
def stW1 : SyncState := ⟨[], none, none, none, [], none, 0, 0⟩

/-- Witness for C1: in a run with an empty source and no configured
websites, both phases return normally and the watermark is written with the
run-start instant (the clock value at index 0). -/
theorem C1_witness :
    (syncAllData envW3 stW1).1 = .ok () ∧
    (syncAllData envW3 stW1).2.lastSuccessfulSync = some 5000 := by
  have h := (C1_watermark_on_success_only envW3 stW1).1 rfl
  refine ⟨rfl, ?_⟩
  rw [h]
  norm_num [envW3, timelineW, stW1]

/-! ### Claim C6 theorem -/

/-- C6: in every analytics phase, `authenticate` is invoked exactly once
(the `authCalls` counter advances by exactly 1, however many websites are
configured), and the token is cleared in the `finally`, so after the phase
— whether it returned normally or threw — the adapter holds no token. -/
theorem C6_auth_once_and_token_cleared (env : Env) (a b : Int) (s : SyncState) :
    (syncAnalyticsDataForWindow env a b s).2.authCalls = s.authCalls + 1 ∧
    (syncAnalyticsDataForWindow env a b s).2.apiToken = none := by
  have h := syncAnalytics_pres env a b s
  exact ⟨h.2.1, h.2.2⟩
/-! ### Lemmas: identity matching in the session phase -/

theorem updateFirst_matched (p : UserDoc → Bool) (f : UserDoc → UserDoc) :
    ∀ l : List UserDoc, (updateFirst p f l).1 = if l.any p then 1 else 0 := by
  intro l
  induction l with
  | nil => simp [updateFirst]
  | cons u us ih =>
    by_cases hu : p u
    · simp [updateFirst, hu]
    · simp [updateFirst, hu, ih]

theorem updateFirst_map_email (p : UserDoc → Bool) (f : UserDoc → UserDoc)
    (hf : ∀ u, (f u).email = u.email) :
    ∀ l : List UserDoc, (updateFirst p f l).2.map UserDoc.email = l.map UserDoc.email := by
  intro l
  induction l with
  | nil => simp [updateFirst]
  | cons u us ih =>
    by_cases hu : p u
    · simp [updateFirst, hu, hf]
    · simp [updateFirst, hu, ih]

theorem userMatch_congr (l l' : List UserDoc)
    (h : l.map UserDoc.email = l'.map UserDoc.email) (r : MySqlSession) :
    userMatch l r = userMatch l' r := by
  have key : ∀ m : List UserDoc,
      userMatch m r = (m.map UserDoc.email).any (fun e => e = jsToLower r.distinct_id) := by
    intro m
    induction m with
    | nil => rfl
    | cons u us ih => simp [userMatch, List.any_cons] at ih ⊢; rw [ih]
  rw [key l, key l', h]

theorem updateUserSessionsGo_result (env : Env) :
    ∀ (l : List MySqlSession) (n : Nat) (s : SyncState),
      (updateUserSessionsGo env l n s).1 = .ok () ∨
      (updateUserSessionsGo env l n s).1 = .error .noUsersUpdated := by
  intro l
  induction l with
  | nil =>
    intro n s
    by_cases h : n = 0
    · exact Or.inr (by simp [updateUserSessionsGo, h])
    · exact Or.inl (by simp [updateUserSessionsGo, h])
  | cons r rest ih =>
    intro n s
    simpa [updateUserSessionsGo, readClock] using ih _ _

theorem updateUserSessionsGo_ok_iff (env : Env) :
    ∀ (l : List MySqlSession) (n : Nat) (s : SyncState),
      (updateUserSessionsGo env l n s).1 = .ok () ↔
        (n ≠ 0 ∨ ∃ r ∈ l, userMatch s.users r = true) := by
  intro l
  induction l with
  | nil =>
    intro n s
    by_cases h : n = 0 <;> simp [updateUserSessionsGo, h]
  | cons r rest ih =>
    intro n s
    simp only [updateUserSessionsGo, readClock]
    rw [ih]
    dsimp only
    have hemail := updateFirst_map_email (fun u => u.email = jsToLower r.distinct_id) (fun u => { u with session_id := some r.session_id, updatedAt := some (env.timeline s.timeIdx) }) (fun u => rfl) s.users
    have hm := updateFirst_matched (fun u => u.email = jsToLower r.distinct_id) (fun u => { u with session_id := some r.session_id, updatedAt := some (env.timeline s.timeIdx) }) s.users
    have hany : s.users.any (fun u => u.email = jsToLower r.distinct_id) =
        userMatch s.users r := rfl
    constructor
    · rintro (hn | ⟨x, hx, hmx⟩)
      · by_cases hn0 : n = 0
        · subst hn0
          simp only [Nat.zero_add] at hn
          rw [hm, hany] at hn
          by_cases hum : userMatch s.users r = true
          · exact Or.inr ⟨r, List.mem_cons_self r rest, hum⟩
          · rw [Bool.not_eq_true] at hum
            rw [hum] at hn
            simp at hn
        · exact Or.inl hn0
      · refine Or.inr ⟨x, List.mem_cons_of_mem r hx, ?_⟩
        rwa [userMatch_congr _ _ hemail x] at hmx
    · rintro (hn | ⟨x, hx, hmx⟩)
      · exact Or.inl (by omega)
      · rcases List.mem_cons.mp hx with rfl | hx'
        · refine Or.inl ?_
          rw [hm, hany, hmx]
          simp
        · refine Or.inr ⟨x, hx', ?_⟩
          rwa [userMatch_congr _ _ hemail x]

/-! ### Lemmas: run-level composition -/

theorem updateLastSuccessfulSync_counters (env : Env) (t : Int) (s : SyncState) :
    (updateLastSuccessfulSync env t s).authCalls = s.authCalls ∧
    (updateLastSuccessfulSync env t s).users = s.users := by
  by_cases hdb : env.dbConnected <;> simp [updateLastSuccessfulSync, readClock, hdb]

theorem determineSyncWindow_isOk (env : Env) (s : SyncState)
    (hdb : env.dbConnected = true) :
    ∃ w, (determineSyncWindow env s).1 = .ok w := by
  cases h : s.lastSuccessfulSync <;> simp [determineSyncWindow, readClock, hdb, h]

/-- Both short-circuits of the session phase: an empty source result, or a
result whose rows are all filtered out, make the phase a state-preserving
no-op success. -/
theorem syncSessionIds_noop (env : Env) (a b : Int) (s : SyncState)
    (rows : List MySqlSession) (hrows : env.sessionsResult = .ok rows)
    (hfil : rows.filter (sessionFromConfigured env) = []) :
    syncSessionIdsForWindow env a b s = (.ok (), s) := by
  by_cases h0 : rows.length = 0 <;>
    simp [syncSessionIdsForWindow, hrows, h0, hfil]

theorem planAndSession_noop (env : Env) (s : SyncState)
    (hdb : env.dbConnected = true)
    (hnoop : ∀ (a b : Int) (s' : SyncState),
      syncSessionIdsForWindow env a b s' = (.ok (), s')) :
    ∃ w, planAndSession env s = (.ok w, (determineSyncWindow env s).2) := by
  obtain ⟨w, hw⟩ := determineSyncWindow_isOk env s hdb
  refine ⟨w, ?_⟩
  rcases hdw : determineSyncWindow env s with ⟨r1, s1⟩
  rw [hdw] at hw
  simp only at hw
  subst hw
  simp only [planAndSession, hdw, hnoop]

/-- Runs whose session phase is a universal no-op success: the analytics
phase always runs (one `authenticate` call), and when authentication
succeeds the run completes and writes the watermark with the run-start
instant. -/
theorem syncAllData_noop_session (env : Env) (s0 : SyncState)
    (hdb : env.dbConnected = true)
    (hnoop : ∀ (a b : Int) (s' : SyncState),
      syncSessionIdsForWindow env a b s' = (.ok (), s')) :
    (syncAllData env s0).2.authCalls = s0.authCalls + 1 ∧
    (∀ tok, env.authResult = .ok tok →
      (syncAllData env s0).1 = .ok () ∧
      (syncAllData env s0).2.lastSuccessfulSync = some (env.timeline s0.timeIdx)) := by
  obtain ⟨w, hps⟩ := planAndSession_noop env { s0 with timeIdx := s0.timeIdx + 1 } hdb hnoop
  have hdwp := determineSyncWindow_pres env { s0 with timeIdx := s0.timeIdx + 1 }
  have hanap := syncAnalytics_pres env w.startDate w.endDate
    (determineSyncWindow env { s0 with timeIdx := s0.timeIdx + 1 }).2
  rcases hana : syncAnalyticsDataForWindow env w.startDate w.endDate
      (determineSyncWindow env { s0 with timeIdx := s0.timeIdx + 1 }).2 with ⟨r2, s2⟩
  rw [hana] at hanap
  cases r2 with
  | error e1 =>
    have hresult : syncAllData env s0 = (.error e1, s2) := by
      simp only [syncAllData, readClock, hps, hana]
    rw [hresult]
    constructor
    · have : s2.authCalls =
          (determineSyncWindow env { s0 with timeIdx := s0.timeIdx + 1 }).2.authCalls + 1 :=
        hanap.2.1
      rw [this, hdwp.2.1]
    · intro tok htok
      have := syncAnalytics_ok env w.startDate w.endDate
        (determineSyncWindow env { s0 with timeIdx := s0.timeIdx + 1 }).2 tok htok
      rw [hana] at this
      simp at this
  | ok u =>
    have hresult : syncAllData env s0 =
        (.ok (), updateLastSuccessfulSync env (env.timeline s0.timeIdx) s2) := by
      simp only [syncAllData, readClock, hps, hana]
    rw [hresult]
    constructor
    · rw [(updateLastSuccessfulSync_counters env (env.timeline s0.timeIdx) s2).1,
        hanap.2.1, hdwp.2.1]
    · intro tok htok
      refine ⟨rfl, ?_⟩
      simp [updateLastSuccessfulSync, hdb, readClock]

/-! ### Claim C8 theorem -/

/-- C8: when the source returns zero session rows, the session phase is a
no-op success that leaves the whole state (in particular the user
collection) untouched, and `syncAllData` still runs the analytics phase in
the same run (the `authenticate` counter advances). -/
theorem C8_empty_source_short_circuit (env : Env) (a b : Int) (s s0 : SyncState)
    (hdb : env.dbConnected = true) (hrows : env.sessionsResult = .ok []) :
    syncSessionIdsForWindow env a b s = (.ok (), s) ∧
    (syncAllData env s0).2.authCalls = s0.authCalls + 1 := by
  have hnoop : ∀ (a' b' : Int) (s' : SyncState),
      syncSessionIdsForWindow env a' b' s' = (.ok (), s') :=
    fun a' b' s' => syncSessionIds_noop env a' b' s' [] hrows (by simp)
  exact ⟨hnoop a b s, (syncAllData_noop_session env s0 hdb hnoop).1⟩

/-- Witness for C8: a concrete empty-source run leaves the state unchanged
in the session phase and still authenticates once for analytics. -/
theorem C8_witness :
    syncSessionIdsForWindow envW3 0 0 stW1 = (.ok (), stW1) ∧
    (syncAllData envW3 stW1).2.authCalls = 1 := by
  have h := C8_empty_source_short_circuit envW3 0 0 stW1 stW1 rfl rfl
  exact ⟨h.1, h.2⟩

/-! ### Claim C9 theorem -/

/-- C9: when the source returns a non-empty list of rows that all reference
website ids outside the configured list, the session phase filters them all
out and succeeds without touching any user (the zero-updates check is never
reached), and — authentication succeeding — the run completes and still
advances the watermark to the run-start instant. -/
theorem C9_all_rows_unconfigured (env : Env) (a b : Int) (s s0 : SyncState)
    (rows : List MySqlSession)
    (hdb : env.dbConnected = true)
    (hrows : env.sessionsResult = .ok rows)
    (hne : rows ≠ [])
    (hout : ∀ r ∈ rows, sessionFromConfigured env r = false) :
    syncSessionIdsForWindow env a b s = (.ok (), s) ∧
    (∀ tok, env.authResult = .ok tok →
      (syncAllData env s0).1 = .ok () ∧
      (syncAllData env s0).2.lastSuccessfulSync = some (env.timeline s0.timeIdx)) := by
  have hfil : rows.filter (sessionFromConfigured env) = [] := by
    rw [List.filter_eq_nil_iff]
    intro r hr
    simp [hout r hr]
  have hnoop : ∀ (a' b' : Int) (s' : SyncState),
      syncSessionIdsForWindow env a' b' s' = (.ok (), s') :=
    fun a' b' s' => syncSessionIds_noop env a' b' s' rows hrows hfil
  exact ⟨hnoop a b s, (syncAllData_noop_session env s0 hdb hnoop).2⟩

/-- A session row referencing a website id outside the configured list. -/
def rowW9 : MySqlSession := ⟨"sid9", 0, "User@Example.com", some "Z"⟩

/-- A concrete environment whose configured website list is `["A"]` but
whose source returns only a row for website `"Z"`. -/
def envW9 : Env :=
  ⟨true, ["A"], none, timelineW, .ok [rowW9], .ok "tok", fun _ _ => .ok ⟨[], 100⟩⟩

/-- Witness for C9: the concrete unconfigured-row run filters everything,
succeeds, and advances the watermark to the run-start instant 5000. -/
theorem C9_witness :
    syncSessionIdsForWindow envW9 0 0 stW1 = (.ok (), stW1) ∧
    (syncAllData envW9 stW1).1 = .ok () ∧
    (syncAllData envW9 stW1).2.lastSuccessfulSync = some 5000 := by
  have h := C9_all_rows_unconfigured envW9 0 0 stW1 stW1 [rowW9] rfl rfl
    (by simp) (by decide)
  have h2 := h.2 "tok" rfl
  refine ⟨h.1, h2.1, ?_⟩
  rw [h2.2]
  norm_num [envW9, timelineW, stW1]

/-! ### Claim C5 theorem -/

/-- C5: the sequential session update succeeds exactly when at least one row
of the batch matches a user by case-normalized identity — so unmatched rows
never fail a batch containing one matching row — and a batch in which no
row matches throws `'No users were updated with session IDs'`; through
`syncAllData`, an all-unmatched non-empty filtered batch is a run-level
failure that leaves the watermark unchanged. -/
theorem C5_zero_updates_run_failure (env : Env) (sessions : List MySqlSession)
    (s : SyncState) (hdb : env.dbConnected = true) :
    ((updateUserSessionsSequential env sessions s).1 = .ok () ↔
      ∃ r ∈ sessions, userMatch s.users r = true) ∧
    ((∀ r ∈ sessions, userMatch s.users r = false) →
      (updateUserSessionsSequential env sessions s).1 = .error .noUsersUpdated) ∧
    (∀ (s0 : SyncState) (rows : List MySqlSession),
      env.sessionsResult = .ok rows →
      rows.filter (sessionFromConfigured env) ≠ [] →
      (∀ r ∈ rows.filter (sessionFromConfigured env), userMatch s0.users r = false) →
      (syncAllData env s0).1 = .error .noUsersUpdated ∧
      (syncAllData env s0).2.lastSuccessfulSync = s0.lastSuccessfulSync) := by
  have hiff : ∀ (s1 : SyncState),
      (updateUserSessionsSequential env sessions s1).1 = .ok () ↔
        ∃ r ∈ sessions, userMatch s1.users r = true := by
    intro s1
    rw [show updateUserSessionsSequential env sessions s1 =
      updateUserSessionsGo env sessions 0 s1 by simp [updateUserSessionsSequential, hdb]]
    rw [updateUserSessionsGo_ok_iff]
    simp
  have herr : ∀ (sess2 : List MySqlSession) (s1 : SyncState),
      (∀ r ∈ sess2, userMatch s1.users r = false) →
      (updateUserSessionsSequential env sess2 s1).1 = .error .noUsersUpdated := by
    intro sess2 s1 hno
    have hgo : updateUserSessionsSequential env sess2 s1 =
        updateUserSessionsGo env sess2 0 s1 := by
      simp [updateUserSessionsSequential, hdb]
    rw [hgo]
    rcases updateUserSessionsGo_result env sess2 0 s1 with hok | he
    · exfalso
      rw [updateUserSessionsGo_ok_iff] at hok
      rcases hok with h0 | ⟨r, hr, hm⟩
      · exact h0 rfl
      · rw [hno r hr] at hm
        exact Bool.false_ne_true hm
    · exact he
  refine ⟨hiff s, herr sessions s, ?_⟩
  intro s0 rows hrows hfne hnomatch
  have hko : ∀ (a b : Int) (s1 : SyncState), s1.users = s0.users →
      (syncSessionIdsForWindow env a b s1).1 = .error .noUsersUpdated := by
    intro a b s1 hu
    have hne' : rows ≠ [] := by
      intro h
      subst h
      simp at hfne
    have hlen : ¬ rows.length = 0 := by
      simpa [List.length_eq_zero] using hne'
    have hflen : ¬ (rows.filter (sessionFromConfigured env)).length = 0 := by
      simpa [List.length_eq_zero] using hfne
    simp only [syncSessionIdsForWindow, hrows, hlen, if_false, hflen]
    exact herr _ s1 (fun r hr => by rw [hu]; exact hnomatch r hr)
  obtain ⟨w, hw⟩ := determineSyncWindow_isOk env { s0 with timeIdx := s0.timeIdx + 1 } hdb
  have hdwp := determineSyncWindow_pres env { s0 with timeIdx := s0.timeIdx + 1 }
  rcases hdw : determineSyncWindow env { s0 with timeIdx := s0.timeIdx + 1 } with ⟨r1, s1⟩
  rw [hdw] at hw hdwp
  simp only at hw
  subst hw
  have hu1 : s1.users = s0.users := hdwp.2.2.1
  have hsp := syncSessionIds_pres env w.startDate w.endDate s1
  have hsk := hko w.startDate w.endDate s1 hu1
  rcases hsr : syncSessionIdsForWindow env w.startDate w.endDate s1 with ⟨r2, s2⟩
  rw [hsr] at hsp hsk
  simp only at hsk
  subst hsk
  have hps : planAndSession env { s0 with timeIdx := s0.timeIdx + 1 } =
      (.error .noUsersUpdated, s2) := by
    simp only [planAndSession, hdw, hsr]
  have hresult : syncAllData env s0 = (.error .noUsersUpdated, s2) := by
    simp only [syncAllData, readClock, hps]
  rw [hresult]
  exact ⟨rfl, hsp.1.trans hdwp.1⟩

/-- A session row whose identity matches the concrete user below. -/
def rowW5a : MySqlSession := ⟨"s5a", 0, "User@Example.COM", some "A"⟩

/-- A session row whose identity matches no user. -/
def rowW5b : MySqlSession := ⟨"s5b", 0, "ghost@nowhere.io", some "A"⟩

/-- A store holding one user, matched by the case-normalized identity of
`rowW5a`. -/
def stW5 : SyncState :=
  ⟨[⟨"user@example.com", none, none, none⟩], none, none, none, [], none, 0, 0⟩

/-- Witness for C5: a batch with one matching and one unmatched row
succeeds, and the same batch against an empty user store throws the
zero-updates error. -/
theorem C5_witness :
    (updateUserSessionsSequential envW9 [rowW5a, rowW5b] stW5).1 = .ok () ∧
    (updateUserSessionsSequential envW9 [rowW5a, rowW5b] stW1).1 =
      .error .noUsersUpdated := by
  constructor
  · exact (C5_zero_updates_run_failure envW9 [rowW5a, rowW5b] stW5 rfl).1.mpr
      ⟨rowW5a, by decide, by decide⟩
  · exact (C5_zero_updates_run_failure envW9 [rowW5a, rowW5b] stW1 rfl).2.1
      (by decide)

/-! ### Lemmas: per-website status effects of the analytics loop -/

theorem getErrorCount_congr (l l' : List (String × PartitionStatus)) (w : String)
    (h : getStatus l w = getStatus l' w) : getErrorCount l w = getErrorCount l' w := by
  unfold getErrorCount
  rw [h]

theorem incrementWebsiteErrorCount_status_ne (env : Env) (w' w : String)
    (s : SyncState) (h : w' ≠ w) :
    getStatus (incrementWebsiteErrorCount env w' s).websiteSyncStatus w =
      getStatus s.websiteSyncStatus w := by
  by_cases hdb : env.dbConnected <;>
    simp [incrementWebsiteErrorCount, hdb, getStatus_inc_ne _ w' w h]

theorem updateWebsiteSyncStatus_status_ne (env : Env) (w' : String) (d : Int)
    (n : Nat) (w : String) (s : SyncState) (h : w' ≠ w) :
    getStatus (updateWebsiteSyncStatus env w' d n s).websiteSyncStatus w =
      getStatus s.websiteSyncStatus w := by
  by_cases hdb : env.dbConnected <;>
    simp [updateWebsiteSyncStatus, readClock, hdb, getStatus_set_ne _ w' w _ h]

theorem syncWebsiteLoop_status_not_mem (env : Env) (endD : Int) :
    ∀ (ids : List String) (s : SyncState) (w : String), w ∉ ids →
      getStatus (syncWebsiteLoop env endD ids s).websiteSyncStatus w =
        getStatus s.websiteSyncStatus w := by
  intro ids
  induction ids with
  | nil => intro s w _; rfl
  | cons a rest ih =>
    intro s w hw
    have haw : a ≠ w := fun h => hw (h ▸ List.mem_cons_self a rest)
    have hwr : w ∉ rest := fun h => hw (List.mem_cons_of_mem a h)
    cases hf : fetchForWebsite env a with
    | error e =>
      rw [show syncWebsiteLoop env endD (a :: rest) s =
        syncWebsiteLoop env endD rest (incrementWebsiteErrorCount env a s) by
          simp [syncWebsiteLoop, hf]]
      rw [ih _ w hwr]
      exact incrementWebsiteErrorCount_status_ne env a w s haw
    | ok sess =>
      by_cases h0 : sess.length = 0
      · rw [show syncWebsiteLoop env endD (a :: rest) s =
          syncWebsiteLoop env endD rest s by simp [syncWebsiteLoop, hf, h0]]
        exact ih _ w hwr
      · rw [show syncWebsiteLoop env endD (a :: rest) s =
          syncWebsiteLoop env endD rest (updateWebsiteSyncStatus env a (isoDay endD)
            sess.length (updateAnalyticsLoop env sess s)) by
            simp [syncWebsiteLoop, hf, h0]]
        rw [ih _ w hwr]
        rw [updateWebsiteSyncStatus_status_ne env a (isoDay endD) sess.length w _ haw]
        rw [(updateAnalyticsLoop_pres env sess s).2.2.1]

theorem syncWebsiteLoop_status_count_one (env : Env) (endD : Int)
    (hdb : env.dbConnected = true) :
    ∀ (w : String) (ids : List String) (s : SyncState), List.count w ids = 1 →
      (∀ e, fetchForWebsite env w = .error e →
        getErrorCount (syncWebsiteLoop env endD ids s).websiteSyncStatus w =
          getErrorCount s.websiteSyncStatus w + 1) ∧
      (∀ sess, fetchForWebsite env w = .ok sess → sess ≠ [] →
        ∃ ps, getStatus (syncWebsiteLoop env endD ids s).websiteSyncStatus w = some ps ∧
          ps.errorCount = 0 ∧ ps.sessionsProcessed = some sess.length) ∧
      (fetchForWebsite env w = .ok [] →
        getStatus (syncWebsiteLoop env endD ids s).websiteSyncStatus w =
          getStatus s.websiteSyncStatus w) := by
  intro w ids
  induction ids with
  | nil =>
    intro s hc
    simp [List.count_nil] at hc
  | cons a rest ih =>
    intro s hc
    by_cases haw : a = w
    · subst haw
      rw [List.count_cons] at hc
      simp only [beq_self_eq_true, if_true] at hc
      have hrest : a ∉ rest := List.count_eq_zero.mp (by omega)
      cases hf : fetchForWebsite env a with
      | error e =>
        have hloop : syncWebsiteLoop env endD (a :: rest) s =
            syncWebsiteLoop env endD rest (incrementWebsiteErrorCount env a s) := by
          simp [syncWebsiteLoop, hf]
        refine ⟨fun e' he' => ?_, fun sess hs _ => ?_, fun hs => ?_⟩
        · rw [hloop,
            getErrorCount_congr _ _ a (syncWebsiteLoop_status_not_mem env endD rest _ a hrest)]
          have : getErrorCount (incrementWebsiteErrorCount env a s).websiteSyncStatus a =
              getErrorCount s.websiteSyncStatus a + 1 := by
            simp only [incrementWebsiteErrorCount, hdb, if_true]
            exact getErrorCount_inc_self s.websiteSyncStatus a
          exact this
        · cases hs
        · cases hs
      | ok sess =>
        by_cases h0 : sess.length = 0
        · have hnil : sess = [] := List.length_eq_zero.mp h0
          subst hnil
          have hloop : syncWebsiteLoop env endD (a :: rest) s =
              syncWebsiteLoop env endD rest s := by
            simp [syncWebsiteLoop, hf]
          refine ⟨fun e' he' => ?_, fun sess' hs hne => ?_, fun _ => ?_⟩
          · cases he'
          · cases hs
            exact absurd rfl hne
          · rw [hloop]
            exact syncWebsiteLoop_status_not_mem env endD rest _ a hrest
        · have hloop : syncWebsiteLoop env endD (a :: rest) s =
              syncWebsiteLoop env endD rest (updateWebsiteSyncStatus env a (isoDay endD)
                sess.length (updateAnalyticsLoop env sess s)) := by
            simp [syncWebsiteLoop, hf, h0]
          refine ⟨fun e' he' => ?_, fun sess' hs hne => ?_, fun hs => ?_⟩
          · cases he'
          · cases hs
            rw [hloop, syncWebsiteLoop_status_not_mem env endD rest _ a hrest]
            refine ⟨⟨some (env.timeline (updateAnalyticsLoop env sess s).timeIdx),
              some (isoDay endD), some sess.length, 0⟩, ?_, rfl, rfl⟩
            simp only [updateWebsiteSyncStatus, hdb, if_true, readClock]
            exact getStatus_set_self _ a _
          · cases hs
            exact absurd (rfl : ([] : List UmamiSession).length = 0) h0
    · have hacount : List.count w (a :: rest) = List.count w rest := by
        rw [List.count_cons]
        simp [haw]
      rw [hacount] at hc
      have hstep : ∀ s' : SyncState,
          getStatus s'.websiteSyncStatus w = getStatus s.websiteSyncStatus w →
          (∀ e, fetchForWebsite env w = .error e →
            getErrorCount (syncWebsiteLoop env endD rest s').websiteSyncStatus w =
              getErrorCount s.websiteSyncStatus w + 1) ∧
          (∀ sess, fetchForWebsite env w = .ok sess → sess ≠ [] →
            ∃ ps, getStatus (syncWebsiteLoop env endD rest s').websiteSyncStatus w = some ps ∧
              ps.errorCount = 0 ∧ ps.sessionsProcessed = some sess.length) ∧
          (fetchForWebsite env w = .ok [] →
            getStatus (syncWebsiteLoop env endD rest s').websiteSyncStatus w =
              getStatus s.websiteSyncStatus w) := by
        intro s' hs'
        have h3 := ih s' hc
        refine ⟨fun e he => ?_, fun sess hs hne => h3.2.1 sess hs hne, fun hs => ?_⟩
        · rw [h3.1 e he, getErrorCount_congr _ _ w hs']
        · rw [h3.2.2 hs, hs']
      cases hf : fetchForWebsite env a with
      | error e =>
        rw [show syncWebsiteLoop env endD (a :: rest) s =
          syncWebsiteLoop env endD rest (incrementWebsiteErrorCount env a s) by
            simp [syncWebsiteLoop, hf]]
        exact hstep _ (incrementWebsiteErrorCount_status_ne env a w s haw)
      | ok sess =>
        by_cases h0 : sess.length = 0
        · rw [show syncWebsiteLoop env endD (a :: rest) s =
            syncWebsiteLoop env endD rest s by simp [syncWebsiteLoop, hf, h0]]
          exact hstep _ rfl
        · rw [show syncWebsiteLoop env endD (a :: rest) s =
            syncWebsiteLoop env endD rest (updateWebsiteSyncStatus env a (isoDay endD)
              sess.length (updateAnalyticsLoop env sess s)) by
              simp [syncWebsiteLoop, hf, h0]]
          refine hstep _ ?_
          rw [updateWebsiteSyncStatus_status_ne env a (isoDay endD) sess.length w _ haw]
          rw [(updateAnalyticsLoop_pres env sess s).2.2.1]

/-! ### Claim C2: counterexample and amended theorem -/

/-- Store state with a pre-existing status for website `"A"` holding
`errorCount = 5`. -/
def stW2c : SyncState :=
  ⟨[], none, none, none, [("A", ⟨none, none, none, 5⟩)], none, 0, 0⟩

/-- Environment in which the single configured website `"A"` fetches
successfully but with zero sessions. -/
def envW2c : Env :=
  ⟨true, ["A"], none, timelineW, .ok [], .ok "tok", fun _ _ => .ok ⟨[], 100⟩⟩

/-- Counterexample to C2 as stated: a full run whose session phase succeeds
and whose single configured website `"A"` succeeds (its fetch yields
`.ok []`, zero sessions) completes normally, yet `"A"`'s `PartitionStatus`
is NOT upserted with `errorCount = 0` and `sessionsProcessed` = number of
fetched sessions — the stale status with `errorCount = 5` survives
untouched, because the loop `continue`s before the upsert when a website
fetches zero sessions. -/
theorem C2_counterexample :
    (syncAllData envW2c stW2c).1 = .ok () ∧
    fetchForWebsite envW2c "A" = .ok [] ∧
    getStatus (syncAllData envW2c stW2c).2.websiteSyncStatus "A" =
      some ⟨none, none, none, 5⟩ ∧
    ¬ ∃ ps, getStatus (syncAllData envW2c stW2c).2.websiteSyncStatus "A" =
        some ps ∧ ps.errorCount = 0 := by
  refine ⟨rfl, rfl, rfl, ?_⟩
  rintro ⟨ps, hps, h0⟩
  rw [show getStatus (syncAllData envW2c stW2c).2.websiteSyncStatus "A" =
    some ⟨none, none, none, 5⟩ from rfl] at hps
  injection hps with h
  subst h
  exact absurd h0 (by decide)

/-- C2 (amended): for a run whose analytics phase authenticates
successfully against a reachable store, the phase returns normally
(per-website failures are caught); for every website occurring once in the
configured list: a fetch failure increments exactly that website's
`errorCount` by 1, a successful NON-EMPTY fetch upserts its status with
`errorCount = 0` and `sessionsProcessed` = number of fetched sessions, and
a successful empty fetch leaves its status untouched; and any run whose
planning and session prefix succeeded still completes and advances
`lastSuccessfulSync` to the run-start instant even when websites failed. -/
theorem C2_amended_partition_scoped (env : Env) (a b : Int) (s : SyncState)
    (hdb : env.dbConnected = true) (tok : String)
    (hauth : env.authResult = .ok tok) :
    (syncAnalyticsDataForWindow env a b s).1 = .ok () ∧
    (∀ w, List.count w env.websiteIds = 1 →
      (∀ e, fetchForWebsite env w = .error e →
        getErrorCount (syncAnalyticsDataForWindow env a b s).2.websiteSyncStatus w =
          getErrorCount s.websiteSyncStatus w + 1) ∧
      (∀ sess, fetchForWebsite env w = .ok sess → sess ≠ [] →
        ∃ ps, getStatus (syncAnalyticsDataForWindow env a b s).2.websiteSyncStatus w =
          some ps ∧ ps.errorCount = 0 ∧ ps.sessionsProcessed = some sess.length) ∧
      (fetchForWebsite env w = .ok [] →
        getStatus (syncAnalyticsDataForWindow env a b s).2.websiteSyncStatus w =
          getStatus s.websiteSyncStatus w)) ∧
    (∀ (s0 : SyncState) (w' : SyncWindow) (s1 : SyncState),
      planAndSession env { s0 with timeIdx := s0.timeIdx + 1 } = (.ok w', s1) →
      (syncAllData env s0).1 = .ok () ∧
      (syncAllData env s0).2.lastSuccessfulSync = some (env.timeline s0.timeIdx)) := by
  refine ⟨syncAnalytics_ok env a b s tok hauth, fun w hcw => ?_, fun s0 w' s1 hps => ?_⟩
  · have hwl := syncWebsiteLoop_status_count_one env b hdb w env.websiteIds
      { s with authCalls := s.authCalls + 1, apiToken := some tok } hcw
    have hstate : (syncAnalyticsDataForWindow env a b s).2.websiteSyncStatus =
        (syncWebsiteLoop env b env.websiteIds
          { s with authCalls := s.authCalls + 1, apiToken := some tok }).websiteSyncStatus := by
      simp [syncAnalyticsDataForWindow, hauth, clearToken]
    refine ⟨fun e he => ?_, fun sess hs hne => ?_, fun hs => ?_⟩
    · rw [getErrorCount_congr _ _ w (by rw [hstate])]
      exact hwl.1 e he
    · rw [hstate]
      exact hwl.2.1 sess hs hne
    · rw [hstate]
      exact hwl.2.2 hs
  · have hana_ok := syncAnalytics_ok env w'.startDate w'.endDate s1 tok hauth
    rcases hana : syncAnalyticsDataForWindow env w'.startDate w'.endDate s1 with ⟨r2, s2⟩
    rw [hana] at hana_ok
    simp only at hana_ok
    subst hana_ok
    have hresult : syncAllData env s0 =
        (.ok (), updateLastSuccessfulSync env (env.timeline s0.timeIdx) s2) := by
      simp only [syncAllData, readClock, hps, hana]
    rw [hresult]
    refine ⟨rfl, ?_⟩
    simp [updateLastSuccessfulSync, hdb, readClock]

/-- Three configured websites, `"B"` always failing its fetch, `"A"` and
`"C"` fetching one session each. -/
def envW2 : Env :=
  ⟨true, ["A", "B", "C"], none, timelineW, .ok [], .ok "tok",
    fun w _ => if w = "B" then .error .apiRequestFailed else .ok ⟨[sessW], 100⟩⟩

/-- Witness for the amended C2: with websites A, B, C where B's fetch always
throws, the phase still returns normally, B's `errorCount` becomes exactly
1, and A's status is upserted with `errorCount = 0` and
`sessionsProcessed = 1`. -/
theorem C2_witness :
    (syncAnalyticsDataForWindow envW2 0 0 stW1).1 = .ok () ∧
    getErrorCount (syncAnalyticsDataForWindow envW2 0 0 stW1).2.websiteSyncStatus "B" = 1 ∧
    (∃ ps, getStatus (syncAnalyticsDataForWindow envW2 0 0 stW1).2.websiteSyncStatus "A" =
        some ps ∧ ps.errorCount = 0 ∧ ps.sessionsProcessed = some 1) := by
  have h := C2_amended_partition_scoped envW2 0 0 stW1 rfl "tok" rfl
  refine ⟨h.1, ?_, ?_⟩
  · have hb := (h.2.1 "B" (by decide)).1 .apiRequestFailed rfl
    simpa using hb
  · have ha := (h.2.1 "A" (by decide)).2.1 [sessW] rfl (by simp)
    simpa using ha
